import Mathlib

/-!
Verification of the cafe-ngon repository: an Instagram crawler
(`src/crawler.py`) that collects media metadata into a `media_data` table,
and a FastAPI server (`src/api.py`) that serves the collected media through
a one-shot in-memory cache.

The embedding is shallow: the external boundaries (the Instagram client,
the MySQL connection, HTTP transport, `random`) are modelled as explicit
oracle parameters, and each Python method becomes a pure Lean function on
explicit state.
-/

/-! ## Crawler data model (`src/crawler.py`) -/

/-- `MediaItem` — the frozen dataclass of `crawler.py` (lines 13-20).
`resource_type` is the Instagram media-type integer. -/
structure MediaItem where
  id : String
  user_id : String
  user_name : String
  resource_id : String
  resource_url : String
  resource_type : Nat
deriving DecidableEq, Repr

/-- State of the MySQL database visible to the crawler: the `media_data`
rows and the `processed_users` rows.  Row order models insertion order. -/
structure DbState where
  media_data : List MediaItem
  processed_users : List String
deriving DecidableEq, Repr

/-- The crawler's environment: the outcome of `Client.login` (`loginOk`),
the configuration (`Config.target_usernames`, the two post limits of
`Config`), and `fetch`, the oracle for the body of the `try` block of
`process_user` (lines 136-153: `user_id_from_username`, `user_medias`
with the given limit, and construction of the `MediaItem` list with fresh
uuids).  `none` models an exception raised anywhere in that block. -/
structure CrawlEnv where
  loginOk : Bool
  target_usernames : List String
  new_user_post_limit : Nat
  existing_user_post_limit : Nat
  fetch : String → Nat → Option (List MediaItem)

/-- `DataManager.save_media_items` (crawler.py lines 94-104).
Modelled from the spec: the `media_data` schema is not under `src/`; the
spec states `resource_id` is unique within the store and that
`INSERT IGNORE` drops duplicate inserts, so a row is appended only when
no existing row carries its `resource_id`. -/
def save_media_items (db : DbState) (items : List MediaItem) : DbState :=
  ⟨items.foldl
      (fun rows item =>
        if rows.any (fun row => row.resource_id == item.resource_id) then rows
        else rows ++ [item])
      db.media_data,
    db.processed_users⟩

/-- `DataManager.add_processed_user` (crawler.py lines 106-113):
`INSERT IGNORE` of the username into `processed_users`. -/
def add_processed_user (db : DbState) (username : String) : DbState :=
  ⟨db.media_data,
    if db.processed_users.contains username then db.processed_users
    else db.processed_users ++ [username]⟩

/-- The value returned by `DataManager.get_existing_resource_ids`
(crawler.py lines 87-92) when the query succeeds: the `resource_id`
column of `media_data` (a Python set; membership is what matters). -/
def existingResourceIds (db : DbState) : List String :=
  db.media_data.map (fun row => row.resource_id)

/-- `InstagramCrawler.process_user` (crawler.py lines 135-156): pick the
limit from the `is_processed` flag, then run the fetch block; `none` is
the `except` branch that logs and returns `None`. -/
def process_user (env : CrawlEnv) (username : String) (isProcessed : Bool) :
    Option (List MediaItem) :=
  env.fetch username
    (if isProcessed then env.existing_user_post_limit else env.new_user_post_limit)

/-- The limit `process_user` hands to `Client.user_medias` for a username,
given the processed-user list loaded at the start of `run` (crawler.py
lines 138-139 and 166). -/
def limitFor (env : CrawlEnv) (processed : List String) (username : String) : Nat :=
  if processed.contains username then env.existing_user_post_limit
  else env.new_user_post_limit

/-- The batch handed to `save_media_items` for one username in the loop of
`run` (crawler.py lines 166-173), if any: the walrus `if items := ...`
skips `None` (fetch error) and the empty list alike; the surviving items
are filtered against the resource ids loaded before the loop, and
`save_media_items` is called only when the filtered batch is nonempty. -/
def savedBatch (env : CrawlEnv) (processed existing : List String)
    (username : String) : Option (String × List MediaItem) :=
  match process_user env username (processed.contains username) with
  | none => none
  | some items =>
    if items.isEmpty then none
    else
      let new_items := items.filter
        (fun item => !(existing.contains item.resource_id))
      if new_items.isEmpty then none else some (username, new_items)

/-- Effect of one iteration of the loop of `run` (crawler.py lines
165-176) on the database: persist the nonempty filtered batch, then mark
the user processed when it was not in the processed list loaded at the
start of the run.  The walrus `if items :=` skips both `None` and `[]`. -/
def crawlDbStep (env : CrawlEnv) (processed existing : List String)
    (db : DbState) (username : String) : DbState :=
  match process_user env username (processed.contains username) with
  | none => db
  | some items =>
    if items.isEmpty then db
    else
      let new_items := items.filter
        (fun item => !(existing.contains item.resource_id))
      let db1 := if new_items.isEmpty then db else save_media_items db new_items
      if processed.contains username then db1 else add_processed_user db1 username

/-- Observable trace of a crawl run: the final database, the batches
handed to `save_media_items` in order, and the `(username, limit)` of
each `process_user` call. -/
structure RunState where
  db : DbState
  saves : List (String × List MediaItem)
  fetchCalls : List (String × Nat)
deriving DecidableEq, Repr

/-- One iteration of the loop of `run`, instrumented: the database effect
is `crawlDbStep`, the persisted batch (if any) is `savedBatch`, and the
`process_user` call with its limit is recorded. -/
def crawlStep (env : CrawlEnv) (processed existing : List String)
    (acc : RunState) (username : String) : RunState :=
  ⟨crawlDbStep env processed existing acc.db username,
    acc.saves ++ (savedBatch env processed existing username).toList,
    acc.fetchCalls ++ [(username, limitFor env processed username)]⟩

/-- `InstagramCrawler.run` (crawler.py lines 158-178) over an explicit
target list: abort when login fails; otherwise load the processed users
and resource ids once, then fold the per-user step over the targets. -/
def runCrawlerOn (env : CrawlEnv) (targets : List String) (db : DbState) :
    RunState :=
  if env.loginOk then
    targets.foldl (crawlStep env db.processed_users (existingResourceIds db))
      ⟨db, [], []⟩
  else ⟨db, [], []⟩

/-- `InstagramCrawler.run` on the configured targets. -/
def runCrawler (env : CrawlEnv) (db : DbState) : RunState :=
  runCrawlerOn env env.target_usernames db

/-! ## Storage read paths and error handling -/

/-- `DataManager.get_processed_users` (crawler.py lines 80-85), with the
cursor outcome explicit.  The method has no `try`/`except`: a storage
error raised by the cursor propagates to the caller. -/
def get_processed_users (queryRows : Except String (List String)) :
    Except String (List String) :=
  match queryRows with
  | Except.ok rows => Except.ok rows
  | Except.error e => Except.error e

/-- `DataManager.get_existing_resource_ids` (crawler.py lines 87-92), with
the cursor outcome explicit.  No `try`/`except` either: a storage error
propagates. -/
def get_existing_resource_ids (queryRows : Except String (List String)) :
    Except String (List String) :=
  match queryRows with
  | Except.ok rows => Except.ok rows
  | Except.error e => Except.error e

/-! ## API server data model (`src/api.py`) -/

/-- `MediaData` — the pydantic model of `api.py` (lines 18-26);
`created_at` is modelled as a timestamp. -/
structure MediaData where
  id : String
  user_id : String
  user_name : String
  resource_id : String
  resource_url : String
  resource_type : Nat
  created_at : Nat
deriving DecidableEq, Repr, Inhabited

/-- `DataManager.load_data` of `api.py` (lines 65-78), with the underlying
query outcome explicit: the `except` branch logs and returns `[]`, so a
storage error degrades to an empty list instead of propagating. -/
def load_data (queryRows : Except String (List MediaData)) : List MediaData :=
  match queryRows with
  | Except.ok rows => rows
  | Except.error _ => []

/-- State visible to the API endpoints: the in-memory `media_cache` of
`APIServer` and the `media_data` table contents (`store`) that a
successful `load_data` returns. -/
structure ServerState where
  media_cache : List MediaData
  store : List MediaData
deriving DecidableEq, Repr

/-- Oracle for the `random` module: `shuffle` models
`random.shuffle` (a permutation of its input) and `choiceIdx` drives
`random.choice` (the element at `choiceIdx % length`). -/
structure RandOracle where
  shuffle : List MediaData → List MediaData
  choiceIdx : Nat
  shuffle_perm : ∀ l, List.Perm (shuffle l) l

/-- `DataManager.remove_media` of `api.py` (lines 80-94): deletes the rows
with the given `resource_id` from the `media_data` table.  Defined by the
source but called by no endpoint. -/
def remove_media (st : ServerState) (resourceId : String) : ServerState :=
  ⟨st.media_cache, st.store.filter (fun m => !(m.resource_id == resourceId))⟩

/-- `get_random_media`, the `GET /api/images/random` endpoint (api.py
lines 150-158): refill the cache from the store (shuffled) when empty,
404 when still empty, else return the `resource_id` of a random cache
element without removing anything. -/
def get_random_media (r : RandOracle) (st : ServerState) :
    Option String × ServerState :=
  let cache := if st.media_cache.isEmpty then r.shuffle st.store else st.media_cache
  if cache.isEmpty then (none, ⟨cache, st.store⟩)
  else
    let media := cache.getD (r.choiceIdx % cache.length) default
    (some media.resource_id, ⟨cache, st.store⟩)

/-- `get_media`, the `GET /api/images/{image_id}` endpoint (api.py lines
160-177): refill the cache when empty, look up the first cache record
with the requested `resource_id` (404 — `none` — when absent), and on a
hit drop every record with that `resource_id` from the cache and serve
the record (whose `resource_url` is then proxied). -/
def get_media (r : RandOracle) (st : ServerState) (imageId : String) :
    Option MediaData × ServerState :=
  let cache := if st.media_cache.isEmpty then r.shuffle st.store else st.media_cache
  match cache.find? (fun m => m.resource_id == imageId) with
  | none => (none, ⟨cache, st.store⟩)
  | some media =>
    (some media, ⟨cache.filter (fun m => !(m.resource_id == imageId)), st.store⟩)

/-- `get_stats`, the `GET /api/media/stats` endpoint (api.py lines
179-187): reload from the store and report the total row count and the
distinct user names; the state is untouched. -/
def get_stats (st : ServerState) : (Nat × Nat × List String) × ServerState :=
  let data := st.store
  let users := (data.map (fun m => m.user_name)).dedup
  ((data.length, users.length, users), st)

/-! ## Concrete fixtures for evaluating the model -/

/-- The empty database. -/
def db0 : DbState := ⟨[], []⟩

/-- A `media_data` row carrying the given `resource_id`. -/
def mkRow (rid : String) : MediaItem :=
  ⟨"row-" ++ rid, "9", "w", rid, "url-" ++ rid, 1⟩

/-- A database whose existing resource ids are `{"a", "b"}`. -/
def dbAB : DbState := ⟨[mkRow "a", mkRow "b"], []⟩

/-- A freshly fetched item of user `u` with the given `resource_id`. -/
def itemFor (u rid : String) : MediaItem :=
  ⟨"uuid-" ++ u ++ "-" ++ rid, "42", u, rid, "url-" ++ rid, 1⟩

/-- Environment of the spec's worked example: one target `"x"` whose
fetch yields resources with ids `["a", "c", "d"]`. -/
def envEx : CrawlEnv :=
  ⟨true, ["x"], 20, 5,
    fun u _ =>
      if u == "x" then some [itemFor "x" "a", itemFor "x" "c", itemFor "x" "d"]
      else none⟩

/-- Environment where the fetch succeeds but yields no media at all. -/
def envEmptyFetch : CrawlEnv := ⟨true, ["u"], 20, 5, fun _ _ => some []⟩

/-- Environment with three targets whose middle fetch raises. -/
def envFailMid : CrawlEnv :=
  ⟨true, ["good1", "bad", "good2"], 20, 5,
    fun u _ => if u == "bad" then none else some [itemFor u ("r-" ++ u)]⟩

/-- Environment whose login fails. -/
def envLoginFail : CrawlEnv :=
  ⟨false, ["x"], 20, 5, fun _ _ => some [itemFor "x" "a"]⟩

/-- Environment where two distinct targets both yield resource id `"z"`. -/
def envShared : CrawlEnv := ⟨true, ["p", "q"], 20, 5, fun u _ => some [itemFor u "z"]⟩

/-- A server-side media record with the given `resource_id`. -/
def mediaFor (rid : String) : MediaData :=
  ⟨"m-" ++ rid, "1", "alice", rid, "url-" ++ rid, 1, 0⟩

/-- The trivial randomness oracle: identity shuffle, index 0. -/
def idRand : RandOracle := ⟨fun l => l, 0, fun l => List.Perm.refl l⟩

/-- Server state whose cache and store both hold records `"a"` and `"b"`. -/
def stAB : ServerState :=
  ⟨[mediaFor "a", mediaFor "b"], [mediaFor "a", mediaFor "b"]⟩

/-- Server state with an empty cache and a one-record store. -/
def stEmptyCache : ServerState := ⟨[], [mediaFor "a"]⟩

/-! ## Lemmas about the crawl loop fold -/

/-- Membership bridge for `List.contains` on strings. -/
theorem contains_eq_true_iff {l : List String} {a : String} :
    l.contains a = true ↔ a ∈ l :=
  List.elem_iff

/-- The database component of the instrumented fold is the fold of the
database steps. -/
theorem foldl_crawlStep_db (env : CrawlEnv) (p e : List String)
    (acc : RunState) (l : List String) :
    (l.foldl (crawlStep env p e) acc).db =
      l.foldl (crawlDbStep env p e) acc.db := by
  induction l generalizing acc with
  | nil => rfl
  | cons u l ih => simpa [crawlStep] using ih (crawlStep env p e acc u)

/-- The persisted batches of the fold are the `savedBatch` values of the
targets, in order. -/
theorem foldl_crawlStep_saves (env : CrawlEnv) (p e : List String)
    (acc : RunState) (l : List String) :
    (l.foldl (crawlStep env p e) acc).saves =
      acc.saves ++ l.filterMap (savedBatch env p e) := by
  induction l generalizing acc with
  | nil => simp
  | cons u l ih =>
    rw [List.foldl_cons, ih, List.filterMap_cons]
    cases h : savedBatch env p e u <;> simp [crawlStep, h]

/-- The fetch calls of the fold are one call per target with its limit. -/
theorem foldl_crawlStep_fetchCalls (env : CrawlEnv) (p e : List String)
    (acc : RunState) (l : List String) :
    (l.foldl (crawlStep env p e) acc).fetchCalls =
      acc.fetchCalls ++ l.map (fun u => (u, limitFor env p u)) := by
  induction l generalizing acc with
  | nil => simp
  | cons u l ih => rw [List.foldl_cons, ih]; simp [crawlStep]

/-- `save_media_items` never touches `processed_users`. -/
theorem save_media_items_processed (db : DbState) (items : List MediaItem) :
    (save_media_items db items).processed_users = db.processed_users := rfl

/-- `add_processed_user` keeps every previously recorded user. -/
theorem mem_add_processed_user (db : DbState) (u a : String)
    (h : a ∈ db.processed_users) :
    a ∈ (add_processed_user db u).processed_users := by
  unfold add_processed_user
  dsimp only
  split
  · exact h
  · exact List.mem_append_left _ h

/-- `add_processed_user db u` records `u`. -/
theorem mem_add_processed_user_self (db : DbState) (u : String) :
    u ∈ (add_processed_user db u).processed_users := by
  unfold add_processed_user
  dsimp only
  split
  · next h => exact contains_eq_true_iff.mp h
  · exact List.mem_append_right _ (List.mem_singleton.mpr rfl)

/-- One database step never removes a processed user. -/
theorem crawlDbStep_processed_mono (env : CrawlEnv) (p e : List String)
    (db : DbState) (u : String) :
    db.processed_users ⊆ (crawlDbStep env p e db u).processed_users := by
  intro a ha
  unfold crawlDbStep
  cases process_user env u (p.contains u) with
  | none => exact ha
  | some items =>
    dsimp only
    split
    · exact ha
    · split
      · split <;> exact ha
      · refine mem_add_processed_user _ _ _ ?_
        split <;> exact ha

/-- The whole loop never removes a processed user. -/
theorem foldl_crawlDbStep_processed_mono (env : CrawlEnv) (p e : List String)
    (db : DbState) (l : List String) :
    db.processed_users ⊆ (l.foldl (crawlDbStep env p e) db).processed_users := by
  induction l generalizing db with
  | nil => exact fun a ha => ha
  | cons u l ih =>
    exact fun a ha =>
      ih (crawlDbStep env p e db u) (crawlDbStep_processed_mono env p e db u ha)

/-- The database step for a user not yet processed, whose fetch succeeds
with a nonempty item list, marks that user processed. -/
theorem crawlDbStep_marks (env : CrawlEnv) (p e : List String) (db : DbState)
    (u : String) (hnp : p.contains u = false) (items : List MediaItem)
    (hpu : process_user env u false = some items)
    (hne : items.isEmpty = false) :
    u ∈ (crawlDbStep env p e db u).processed_users := by
  unfold crawlDbStep
  rw [hnp, hpu]
  dsimp only
  rw [hne]
  simp only [Bool.false_eq_true, if_false]
  exact mem_add_processed_user_self _ _

/-- A failing fetch leaves the database untouched. -/
theorem crawlDbStep_none (env : CrawlEnv) (p e : List String) (db : DbState)
    (u : String) (h : process_user env u (p.contains u) = none) :
    crawlDbStep env p e db u = db := by
  unfold crawlDbStep
  rw [h]

/-- A failing fetch persists no batch. -/
theorem savedBatch_none (env : CrawlEnv) (p e : List String) (u : String)
    (h : process_user env u (p.contains u) = none) :
    savedBatch env p e u = none := by
  unfold savedBatch
  rw [h]

/-- When the fetched items contain an item whose `resource_id` is not
among the existing ids, the batch for that user is persisted and holds
the item. -/
theorem savedBatch_of_item (env : CrawlEnv) (p e : List String) (u : String)
    (items : List MediaItem) (item : MediaItem)
    (hpu : process_user env u (p.contains u) = some items)
    (hitem : item ∈ items)
    (hnew : e.contains item.resource_id = false) :
    ∃ new_items, savedBatch env p e u = some (u, new_items) ∧
      item ∈ new_items := by
  have hne : items.isEmpty = false :=
    List.isEmpty_eq_false.mpr (List.ne_nil_of_mem hitem)
  have hfm : item ∈ items.filter (fun it => !(e.contains it.resource_id)) :=
    List.mem_filter.mpr ⟨hitem, by rw [hnew]; rfl⟩
  have hfe : (items.filter (fun it => !(e.contains it.resource_id))).isEmpty
      = false :=
    List.isEmpty_eq_false.mpr (List.ne_nil_of_mem hfm)
  refine ⟨items.filter (fun it => !(e.contains it.resource_id)), ?_, hfm⟩
  unfold savedBatch
  rw [hpu]
  dsimp only
  rw [hne, hfe]
  simp

/-- A target user with a successfully fetched item whose `resource_id`
is absent from the pre-run existing set gets that item into one of the
persisted batches of the run. -/
theorem item_saved (env : CrawlEnv) (db : DbState) (u : String)
    (items : List MediaItem) (item : MediaItem)
    (hlogin : env.loginOk = true) (hmem : u ∈ env.target_usernames)
    (hpu : process_user env u (db.processed_users.contains u) = some items)
    (hitem : item ∈ items)
    (hnew : (existingResourceIds db).contains item.resource_id = false) :
    ∃ batch, (u, batch) ∈ (runCrawler env db).saves ∧ item ∈ batch := by
  obtain ⟨new_items, hsb, hin⟩ :=
    savedBatch_of_item env db.processed_users (existingResourceIds db) u items
      item hpu hitem hnew
  refine ⟨new_items, ?_, hin⟩
  unfold runCrawler runCrawlerOn
  rw [hlogin, if_pos rfl, foldl_crawlStep_saves]
  dsimp only
  rw [List.nil_append]
  exact List.mem_filterMap.mpr ⟨u, hmem, hsb⟩

/-! ## Claim theorems: crawler -/

/-- Claim C1: in every crawl run, the batch persisted for a target user
is exactly the list of fetched items whose `resource_id` is not in the
existing-id set loaded from the store before the per-user loop. -/
theorem run_persists_exactly_unseen (env : CrawlEnv) (db : DbState)
    (u : String) (batch : List MediaItem)
    (hmem : (u, batch) ∈ (runCrawler env db).saves) :
    ∃ items,
      process_user env u (db.processed_users.contains u) = some items ∧
      batch = items.filter
        (fun item => !((existingResourceIds db).contains item.resource_id)) := by
  unfold runCrawler runCrawlerOn at hmem
  by_cases hlogin : env.loginOk
  · rw [if_pos hlogin, foldl_crawlStep_saves] at hmem
    dsimp only at hmem
    rw [List.nil_append] at hmem
    obtain ⟨u2, hu2, hsb⟩ := List.mem_filterMap.mp hmem
    unfold savedBatch at hsb
    split at hsb
    · exact absurd hsb (by simp)
    · next items hpu =>
      dsimp only at hsb
      split at hsb
      · exact absurd hsb (by simp)
      · split at hsb
        · exact absurd hsb (by simp)
        · simp only [Option.some.injEq, Prod.mk.injEq] at hsb
          obtain ⟨hu, hb⟩ := hsb
          subst hu
          exact ⟨items, hpu, hb.symm⟩
  · rw [if_neg hlogin] at hmem
    exact absurd hmem (by simp)

/-- Claim C1 witness: with existing ids `{"a", "b"}` and a fetch for
`"x"` yielding resources `["a", "c", "d"]`, the persisted batch is
exactly `["c", "d"]`. -/
theorem run_persists_exactly_unseen_witness :
    ∃ items,
      process_user envEx "x" (dbAB.processed_users.contains "x") = some items ∧
      [itemFor "x" "c", itemFor "x" "d"] = items.filter
        (fun item => !((existingResourceIds dbAB).contains item.resource_id)) :=
  run_persists_exactly_unseen envEx dbAB "x"
    [itemFor "x" "c", itemFor "x" "d"] (by decide)

/-- Claim C2 counterexample: a fetch that succeeds with an empty media
list does not mark the user processed — the walrus `if items :=` in
`run` treats the empty list like `None`, so the marking step is skipped
even though the fetch succeeded. -/
theorem empty_fetch_skips_processed_mark :
    process_user envEmptyFetch "u" false = some [] ∧
    "u" ∈ envEmptyFetch.target_usernames ∧
    "u" ∉ (runCrawler envEmptyFetch db0).db.processed_users := by
  refine ⟨rfl, by decide, by decide⟩

/-- Claim C2 (amended): every target user whose fetch succeeds with a
nonempty item list and who is not already in the processed set loaded at
the start of the run is marked processed, regardless of how many items
survive the dedup filter. -/
theorem nonempty_fetch_marks_processed (env : CrawlEnv) (db : DbState)
    (u : String) (hlogin : env.loginOk = true)
    (hmem : u ∈ env.target_usernames)
    (hnp : db.processed_users.contains u = false)
    (items : List MediaItem)
    (hpu : process_user env u false = some items)
    (hne : items.isEmpty = false) :
    u ∈ (runCrawler env db).db.processed_users := by
  obtain ⟨l1, l2, hsplit⟩ := List.append_of_mem hmem
  unfold runCrawler runCrawlerOn
  rw [hlogin, if_pos rfl, hsplit, foldl_crawlStep_db]
  dsimp only
  rw [List.foldl_append, List.foldl_cons]
  exact foldl_crawlDbStep_processed_mono _ _ _ _ l2
    (crawlDbStep_marks _ _ _ _ u hnp items hpu hne)

/-- Claim C2 witness: user `"x"` with a nonempty fetch of which only a
part survives the dedup filter ends up in the processed set. -/
theorem nonempty_fetch_marks_processed_witness :
    "x" ∈ (runCrawler envEx dbAB).db.processed_users :=
  nonempty_fetch_marks_processed envEx dbAB "x" rfl (by decide) (by decide)
    [itemFor "x" "a", itemFor "x" "c", itemFor "x" "d"] (by decide) (by decide)

/-- Claim C3: a per-user fetch error is caught and the user is skipped;
the run's database effect and persisted batches are exactly those of the
same run without the failing user, so later users are still processed
and persisted. -/
theorem fetch_failure_skips_user (env : CrawlEnv) (db : DbState)
    (u : String) (l1 l2 : List String)
    (hsplit : env.target_usernames = l1 ++ u :: l2)
    (hfail : ∀ b : Bool, env.fetch u
      (if b then env.existing_user_post_limit else env.new_user_post_limit)
        = none) :
    (runCrawler env db).db = (runCrawlerOn env (l1 ++ l2) db).db ∧
      (runCrawler env db).saves = (runCrawlerOn env (l1 ++ l2) db).saves := by
  have hpu : ∀ b, process_user env u b = none := fun b => hfail b
  unfold runCrawler runCrawlerOn
  rw [hsplit]
  by_cases hlogin : env.loginOk
  · rw [if_pos hlogin, if_pos hlogin]
    constructor
    · rw [foldl_crawlStep_db, foldl_crawlStep_db]
      dsimp only
      rw [List.foldl_append, List.foldl_append, List.foldl_cons,
        crawlDbStep_none _ _ _ _ _ (hpu _)]
    · rw [foldl_crawlStep_saves, foldl_crawlStep_saves]
      dsimp only
      rw [List.nil_append, List.nil_append, List.filterMap_append,
        List.filterMap_append, List.filterMap_cons,
        savedBatch_none _ _ _ _ (hpu _)]
  · rw [if_neg hlogin, if_neg hlogin]
    exact ⟨rfl, rfl⟩

/-- Claim C3 witness: with targets `["good1", "bad", "good2"]` and the
fetch of `"bad"` raising, the run equals the run on
`["good1", "good2"]`. -/
theorem fetch_failure_skips_user_witness :
    (runCrawler envFailMid db0).db =
      (runCrawlerOn envFailMid (["good1"] ++ ["good2"]) db0).db ∧
    (runCrawler envFailMid db0).saves =
      (runCrawlerOn envFailMid (["good1"] ++ ["good2"]) db0).saves :=
  fetch_failure_skips_user envFailMid db0 "bad" ["good1"] ["good2"] rfl
    (by decide)

/-- Claim C6: every `process_user` call of a run uses
`existing_user_post_limit` when the username is in the processed set
loaded at the start of the run and `new_user_post_limit` otherwise; no
other limit is ever used, and there is exactly one call per target. -/
theorem fetch_limit_selection (env : CrawlEnv) (db : DbState) :
    (runCrawler env db).fetchCalls =
      if env.loginOk then
        env.target_usernames.map (fun u =>
          (u, if db.processed_users.contains u then env.existing_user_post_limit
            else env.new_user_post_limit))
      else [] := by
  unfold runCrawler runCrawlerOn
  by_cases hlogin : env.loginOk
  · rw [if_pos hlogin, if_pos hlogin, foldl_crawlStep_fetchCalls]
    dsimp only
    rw [List.nil_append]
    simp only [limitFor]
  · rw [if_neg hlogin, if_neg hlogin]

/-- Claim C8: when authentication fails, `run` aborts before any
per-user work: the database is unchanged, no batch is persisted and no
fetch is attempted. -/
theorem login_failure_preserves_store (env : CrawlEnv) (db : DbState)
    (h : env.loginOk = false) :
    runCrawler env db = ⟨db, [], []⟩ := by
  unfold runCrawler runCrawlerOn
  rw [h]
  simp

/-- Claim C8 witness: a failed login leaves the empty database empty. -/
theorem login_failure_preserves_store_witness :
    runCrawler envLoginFail db0 = ⟨db0, [], []⟩ :=
  login_failure_preserves_store envLoginFail db0 rfl

/-- Claim C10: the existing-id set is loaded once before the loop and
never extended during the run, so a resource id absent from the pre-run
set that is fetched for two target users passes the filter both times
and appears in both users' persisted batches. -/
theorem no_intra_run_dedup (env : CrawlEnv) (db : DbState)
    (u1 u2 : String) (items1 items2 : List MediaItem)
    (item1 item2 : MediaItem)
    (hlogin : env.loginOk = true)
    (h1 : u1 ∈ env.target_usernames) (h2 : u2 ∈ env.target_usernames)
    (hpu1 : process_user env u1 (db.processed_users.contains u1) = some items1)
    (hpu2 : process_user env u2 (db.processed_users.contains u2) = some items2)
    (hi1 : item1 ∈ items1) (hi2 : item2 ∈ items2)
    (hshare : item2.resource_id = item1.resource_id)
    (hnew : (existingResourceIds db).contains item1.resource_id = false) :
    (∃ batch1, (u1, batch1) ∈ (runCrawler env db).saves ∧ item1 ∈ batch1) ∧
    (∃ batch2, (u2, batch2) ∈ (runCrawler env db).saves ∧ item2 ∈ batch2) :=
  ⟨item_saved env db u1 items1 item1 hlogin h1 hpu1 hi1 hnew,
    item_saved env db u2 items2 item2 hlogin h2 hpu2 hi2
      (by rw [hshare]; exact hnew)⟩

/-- Claim C10 witness: resource id `"z"`, new to the store, fetched for
both `"p"` and `"q"`, lands in both persisted batches of the run. -/
theorem no_intra_run_dedup_witness :
    (∃ batch1, ("p", batch1) ∈ (runCrawler envShared db0).saves ∧
      itemFor "p" "z" ∈ batch1) ∧
    (∃ batch2, ("q", batch2) ∈ (runCrawler envShared db0).saves ∧
      itemFor "q" "z" ∈ batch2) :=
  no_intra_run_dedup envShared db0 "p" "q" [itemFor "p" "z"] [itemFor "q" "z"]
    (itemFor "p" "z") (itemFor "q" "z") rfl (by decide) (by decide) rfl rfl
    (by decide) (by decide) rfl (by decide)

/-! ## Claim theorems: API server -/

/-- A `getD` at an index reduced modulo the length of a nonempty list
lands in the list. -/
theorem getD_mod_mem {l : List MediaData} (hne : l ≠ []) (n : Nat)
    (d : MediaData) : l.getD (n % l.length) d ∈ l := by
  have hlt : n % l.length < l.length := Nat.mod_lt _ (List.length_pos.mpr hne)
  rw [List.getD_eq_getElem?_getD, List.getElem?_eq_getElem hlt]
  exact List.getElem_mem hlt

/-- After filtering out an id, no record with that id can be found. -/
theorem find?_filter_ne_none (l : List MediaData) (i : String) :
    (l.filter (fun x => !(x.resource_id == i))).find?
      (fun x => x.resource_id == i) = none := by
  refine List.find?_eq_none.mpr (fun x hx => ?_)
  have hb := (List.mem_filter.mp hx).2
  simp only [Bool.not_eq_eq_eq_not, Bool.not_true] at hb
  simp [hb]

/-- Claim C4: `GET /media/{id}` has one-shot semantics: when the cache
holds a record with the requested id, the call returns such a record and
removes it from the in-memory cache, so a second call with the same id
signals 404 provided the cache is not refilled in between (it is still
nonempty). -/
theorem get_by_id_one_shot (r1 r2 : RandOracle) (st : ServerState)
    (i : String) (hin : ∃ m ∈ st.media_cache, m.resource_id = i) :
    ∃ media st1, get_media r1 st i = (some media, st1) ∧
      media.resource_id = i ∧
      (st1.media_cache.isEmpty = false → (get_media r2 st1 i).1 = none) := by
  obtain ⟨m, hm, hmi⟩ := hin
  have hne : st.media_cache.isEmpty = false :=
    List.isEmpty_eq_false.mpr (List.ne_nil_of_mem hm)
  have hsome : (st.media_cache.find? (fun x => x.resource_id == i)).isSome :=
    List.find?_isSome.mpr ⟨m, hm, by simp [hmi]⟩
  obtain ⟨media, hfind⟩ := Option.isSome_iff_exists.mp hsome
  refine ⟨media,
    ⟨st.media_cache.filter (fun x => !(x.resource_id == i)), st.store⟩,
    ?_, ?_, ?_⟩
  · simp only [get_media, hne, Bool.false_eq_true, if_false, hfind]
  · simpa using List.find?_some hfind
  · intro h2
    simp only [get_media, h2, Bool.false_eq_true, if_false,
      find?_filter_ne_none]

/-- Claim C4 witness: with records `"a"` and `"b"` cached, requesting
`"a"` serves it once and the immediate second request misses. -/
theorem get_by_id_one_shot_witness :
    ∃ media st1, get_media idRand stAB "a" = (some media, st1) ∧
      media.resource_id = "a" ∧
      (st1.media_cache.isEmpty = false → (get_media idRand st1 "a").1 = none) :=
  get_by_id_one_shot idRand idRand stAB "a" (by decide)

/-- Claim C5: `GET /media/random` removes nothing from the cache (it
only refills it when empty), its result is the `resource_id` of an
element of the snapshot that populated the cache, and it signals 404
exactly when that snapshot is empty.  `snap` is the populating snapshot:
the store itself when this call refills, and any superset of the live
cache otherwise. -/
theorem pick_random_no_eviction (r : RandOracle) (st : ServerState)
    (snap : List MediaData)
    (hpop : st.media_cache.isEmpty = true → snap = st.store)
    (hsub : st.media_cache.isEmpty = false → ∀ m ∈ st.media_cache, m ∈ snap) :
    (get_random_media r st).2.media_cache =
      (if st.media_cache.isEmpty then r.shuffle st.store
        else st.media_cache) ∧
    ((get_random_media r st).1 = none ↔ snap = []) ∧
    (∀ rid, (get_random_media r st).1 = some rid →
      ∃ m ∈ snap, m.resource_id = rid) := by
  cases hc : st.media_cache.isEmpty with
  | true =>
    have hsnap : snap = st.store := hpop hc
    have hmc : st.media_cache = [] := List.isEmpty_iff.mp hc
    by_cases hsh : (r.shuffle st.store).isEmpty
    · have hsl : r.shuffle st.store = [] := List.isEmpty_iff.mp hsh
      have hstore : st.store = [] := by
        have hperm := r.shuffle_perm st.store
        rw [hsl] at hperm
        exact hperm.symm.eq_nil
      have hsl2 : r.shuffle [] = [] := by
        have h0 := hsl
        rw [hstore] at h0
        exact h0
      refine ⟨?_, ?_, ?_⟩ <;>
        simp [get_random_media, hmc, hsl2, hsnap, hstore]
    · have hshf : (r.shuffle st.store).isEmpty = false := by
        simpa using hsh
      have hne2 : r.shuffle st.store ≠ [] := List.isEmpty_eq_false.mp hshf
      have hstore : st.store ≠ [] := by
        intro h0
        exact hne2 (by rw [h0]; exact (r.shuffle_perm []).eq_nil)
      have heval : (get_random_media r st).1 =
          some (((r.shuffle st.store).getD
            (r.choiceIdx % (r.shuffle st.store).length) default).resource_id) := by
        simp [get_random_media, hmc, hshf]
      refine ⟨by simp [get_random_media, hmc, hshf], ?_, ?_⟩
      · rw [heval, hsnap]
        exact iff_of_false (by simp) hstore
      · intro rid hr
        rw [heval] at hr
        rw [hsnap]
        exact ⟨_, (r.shuffle_perm st.store).mem_iff.mp (getD_mod_mem hne2 _ _),
          Option.some.inj hr⟩
  | false =>
    have hsub2 := hsub hc
    have hne : st.media_cache ≠ [] := List.isEmpty_eq_false.mp hc
    have heval : (get_random_media r st).1 =
        some ((st.media_cache.getD
          (r.choiceIdx % st.media_cache.length) default).resource_id) := by
      simp [get_random_media, hc]
    refine ⟨by simp [get_random_media, hc], ?_, ?_⟩
    · rw [heval]
      refine iff_of_false (by simp) (fun hsnap0 => ?_)
      obtain ⟨x, hx⟩ := List.exists_mem_of_ne_nil st.media_cache hne
      have hxs := hsub2 x hx
      rw [hsnap0] at hxs
      exact absurd hxs (List.not_mem_nil x)
    · intro rid hr
      rw [heval] at hr
      exact ⟨_, hsub2 _ (getD_mod_mem hne _ _), Option.some.inj hr⟩

/-- Claim C5 witness: with an empty cache and a one-record store, the
random pick refills the cache, keeps it intact, and answers from the
store snapshot. -/
theorem pick_random_no_eviction_witness :
    (get_random_media idRand stEmptyCache).2.media_cache =
      (if stEmptyCache.media_cache.isEmpty then
        idRand.shuffle stEmptyCache.store
        else stEmptyCache.media_cache) ∧
    ((get_random_media idRand stEmptyCache).1 = none ↔
      ([mediaFor "a"] : List MediaData) = []) ∧
    (∀ rid, (get_random_media idRand stEmptyCache).1 = some rid →
      ∃ m ∈ ([mediaFor "a"] : List MediaData), m.resource_id = rid) :=
  pick_random_no_eviction idRand stEmptyCache [mediaFor "a"]
    (fun _ => rfl) (fun h => absurd h (by decide))

/-- Claim C9: no API endpoint writes the persistent store: serving by id
removes records from the in-memory cache only, and the random and stats
endpoints leave the store untouched as well. -/
theorem serving_never_writes_store (r : RandOracle) (st : ServerState)
    (i : String) :
    (get_media r st i).2.store = st.store ∧
    (get_random_media r st).2.store = st.store ∧
    (get_stats st).2 = st := by
  refine ⟨?_, ?_, rfl⟩
  · simp only [get_media]
    split <;> rfl
  · simp only [get_random_media]
    split
    · split <;> rfl
    · rfl

/-! ## Claim theorems: storage error handling -/

/-- Claim C7 counterexample: a storage error on the crawler's read paths
propagates to the caller instead of degrading to an empty result —
`get_processed_users` and `get_existing_resource_ids` have no
`try`/`except`. -/
theorem crawler_read_error_propagates :
    get_processed_users (Except.error "connection failed") =
      Except.error "connection failed" ∧
    get_processed_users (Except.error "connection failed") ≠
      Except.ok ([] : List String) ∧
    get_existing_resource_ids (Except.error "connection failed") =
      Except.error "connection failed" :=
  ⟨rfl, fun h => Except.noConfusion h, rfl⟩

/-- Claim C7 (amended): only the API's media-record read path
(`DataManager.load_data` in `api.py`) degrades a storage error to an
empty result; the crawler's `get_processed_users` and
`get_existing_resource_ids` propagate the error. -/
theorem read_error_handling (e : String) :
    load_data (Except.error e) = [] ∧
    get_processed_users (Except.error e) = Except.error e ∧
    get_existing_resource_ids (Except.error e) = Except.error e :=
  ⟨rfl, rfl, rfl⟩
